import Mathlib

/-!
Verification of the memo backend (src/backend/src/routes/memo.ts).

The relational store (Cloudflare D1) is modelled as lists of rows; each HTTP
handler becomes a pure function from the store, the authenticated principal
(if any) and the parsed request to a result, returning the updated store on
success.  Machine timestamps are natural numbers of epoch seconds, exactly as
the code computes them with Math.floor(Date.now() / 1000).
-/

namespace Memos

/-- A row of the `user` table (only the columns the memo routes read). -/
structure User where
  id : Nat
  uid : String
  username : String
deriving DecidableEq

/-- A row of the `memo` table. -/
structure Memo where
  id : Nat
  uid : String
  creator_id : Nat
  content : String
  visibility : String
  row_status : String
  created_ts : Nat
  updated_ts : Nat
deriving DecidableEq

/-- A row of the `resource` table (only the columns the memo routes read). -/
structure Resource where
  id : Nat
  uid : String
deriving DecidableEq

/-- A row of the `memo_resource` association table. -/
structure MemoResource where
  memo_id : Nat
  resource_id : Nat
deriving DecidableEq

/-- A row of the `tag` table. -/
structure Tag where
  id : Nat
  name : String
deriving DecidableEq

/-- A row of the `memo_tag` association table. -/
structure MemoTag where
  memo_id : Nat
  tag_id : Nat
deriving DecidableEq

/-- The relational store: the tables the memo routes touch. -/
structure State where
  users : List User
  memos : List Memo
  resources : List Resource
  memo_resources : List MemoResource
  tags : List Tag
  memo_tags : List MemoTag
deriving DecidableEq

/-- The authenticated principal placed on the context by the auth middleware
(reading the user key of the context): JWT subject, username and role. -/
structure Principal where
  sub : String
  username : String
  role : String
deriving DecidableEq

/-- The query `SELECT id FROM user WHERE uid = ?` followed by the null check
of the helper `getUserIdFromUid`. -/
def getUserIdFromUid (s : State) (uid : String) : Option Nat :=
  (s.users.find? (fun u => u.uid == uid)).map (fun u => u.id)

/-- The query `SELECT * FROM memo WHERE id = ?` (point lookup used by PATCH
and DELETE). -/
def findMemo (s : State) (memoId : Nat) : Option Memo :=
  s.memos.find? (fun m => m.id == memoId)

/-- Whether some `user` row has the given id (the `JOIN user u ON
m.creator_id = u.id` succeeds for a memo iff this holds of its creator). -/
def userExists (s : State) (userId : Nat) : Bool :=
  s.users.any (fun u => u.id == userId)

/-- The query `SELECT m.*, u.username FROM memo m JOIN user u ON
m.creator_id = u.id WHERE m.id = ?`: the memo row, provided its creator exists. -/
def findMemoJoined (s : State) (memoId : Nat) : Option Memo :=
  match findMemo s memoId with
  | none => none
  | some m => if userExists s m.creator_id then some m else none

/-- Outcome of the direct-fetch route `GET /:id`. -/
inductive ReadResult where
  | notFound
  | forbidden
  | ok (m : Memo)
deriving DecidableEq

/-- Handler of `GET /:id` (memo.ts lines 180-208): join-fetch the memo, 404 if
absent; if its visibility is PRIVATE, require a principal whose resolved id
equals the creator id, else 403; otherwise return the memo. -/
def getMemoHandler (s : State) (req : Option Principal) (memoId : Nat) : ReadResult :=
  match findMemoJoined s memoId with
  | none => .notFound
  | some m =>
    if m.visibility == "PRIVATE" then
      match req with
      | none => .forbidden
      | some p =>
        if some m.creator_id == getUserIdFromUid s p.sub then .ok m else .forbidden
    else .ok m

/-- A structured resource reference from a request body: an object whose
optional `name` field carries a reference string `resources/{uid}`. -/
structure ResourceRef where
  name : Option String
deriving DecidableEq

/-- The characters of the last segment of a string split on a separator,
computed over the reversed character list: everything up to the first
separator. -/
def lastSegmentRev (sep : Char) : List Char → List Char
  | [] => []
  | c :: rest => if c = sep then [] else c :: lastSegmentRev sep rest

/-- What the split-pop chain computes on a name string: the segment of `n`
after its last slash (the whole string when there is no slash; empty when `n`
ends in a slash or is empty). -/
def lastSegment (n : String) : String :=
  String.mk ((lastSegmentRev '/' n.data.reverse).reverse)

/-- The optional-chained split-pop of the resource name followed by the
truthiness test of the result (memo.ts lines 67-68): the trailing path segment of the name, when the name is
present and that segment is nonempty. -/
def extractUid (name : Option String) : Option String :=
  match name with
  | none => none
  | some n =>
    let u := lastSegment n
    if u == "" then none else some u

/-- The query `SELECT id FROM resource WHERE uid = ?`. -/
def lookupResourceId (s : State) (uid : String) : Option Nat :=
  (s.resources.find? (fun r => r.uid == uid)).map (fun r => r.id)

/-- The resolution loop over a `resources` array (memo.ts lines 65-80 and
268-283): for each reference, extract the uid and look it up; a reference with
no extractable uid or no matching resource row contributes nothing. -/
def resolveResources (s : State) (refs : List ResourceRef) : List Nat :=
  refs.filterMap (fun r => (extractUid r.name).bind (lookupResourceId s))

/-- The generated id `meta.last_row_id` of an insert into `memo`. -/
def nextMemoId (s : State) : Nat :=
  (s.memos.foldl (fun a m => max a m.id) 0) + 1

/-- The generated id of an insert into `tag`. -/
def nextTagId (s : State) : Nat :=
  (s.tags.foldl (fun a t => max a t.id) 0) + 1

/-- Insert a tag row with the given name unless one already exists. -/
def ensureTag (s : State) (n : String) : State :=
  if s.tags.any (fun t => t.name == n) then s
  else { s with tags := s.tags ++ [{ id := nextTagId s, name := n }] }

/-- Modelled from the spec: the Tag Synchronizer contract of `updateMemoTags`
(imported from src/backend/src/utils.ts, which is not part of the sources).
Per the spec it extracts a canonical set of tag names from the text (the exact
extraction rule is an external concern, passed here as the parameter
`extract`), ensures each tag exists in the tag table, and replaces the memo
tag associations with exactly this set, touching no other table. -/
def updateMemoTags (extract : String → List String) (s : State)
    (memoId : Nat) (_ownerId : Nat) (content : String) : State :=
  let names := (extract content).dedup
  let s1 := names.foldl ensureTag s
  let tagIds := names.filterMap
    (fun n => (s1.tags.find? (fun t => t.name == n)).map (fun t => t.id))
  { s1 with memo_tags :=
      s1.memo_tags.filter (fun l => l.memo_id != memoId) ++
        tagIds.map (fun tid => { memo_id := memoId, tag_id := tid }) }

/-- The JSON body of `POST /` as destructured on memo.ts line 27; `none`
models an absent field. -/
structure CreateBody where
  content : Option String
  visibility : Option String
  resourceIdList : Option (List Nat)
  resources : Option (List ResourceRef)
deriving DecidableEq

/-- Outcome of the create route `POST /`. -/
inductive CreateResult where
  | unauthorized
  | contentRequired
  | userNotFound
  | ok (s : State) (memoId : Nat)
deriving DecidableEq

/-- Handler of `POST /` (memo.ts lines 20-112): require a principal; require
truthy content; resolve the principal to a user row, 404 if absent; insert the
memo row (visibility defaulting to PRIVATE, status NORMAL, both timestamps
now); resolve and insert resource associations, the structured `resources`
shape taking over whenever it is nonempty; then run the tag synchronizer. -/
def createMemo (extract : String → List String) (s : State) (req : Option Principal)
    (body : CreateBody) (memoUid : String) (now : Nat) : CreateResult :=
  match req with
  | none => .unauthorized
  | some p =>
    match body.content with
    | none => .contentRequired
    | some content =>
      if content == "" then .contentRequired
      else
        match getUserIdFromUid s p.sub with
        | none => .userNotFound
        | some userId =>
          let memoId := nextMemoId s
          let memo : Memo :=
            { id := memoId, uid := memoUid, creator_id := userId,
              content := content, visibility := body.visibility.getD "PRIVATE",
              row_status := "NORMAL", created_ts := now, updated_ts := now }
          let s1 := { s with memos := s.memos ++ [memo] }
          let resources := body.resources.getD []
          let finalResourceIdList :=
            if resources.length > 0 then resolveResources s1 resources
            else body.resourceIdList.getD []
          let s2 := { s1 with memo_resources :=
              s1.memo_resources ++
                finalResourceIdList.map (fun rid => { memo_id := memoId, resource_id := rid }) }
          .ok (updateMemoTags extract s2 memoId userId content) memoId

/-- The JSON body of `PATCH /:id` as destructured on memo.ts line 233. -/
structure PatchBody where
  content : Option String
  visibility : Option String
  resourceIdList : Option (List Nat)
  resources : Option (List ResourceRef)
deriving DecidableEq

/-- Outcome of the mutation routes `PATCH /:id` and `DELETE /:id`. -/
inductive WriteResult where
  | unauthorized
  | notFound
  | forbidden
  | ok (s : State)
deriving DecidableEq

/-- The write guard shared by PATCH and DELETE (memo.ts lines 229 and 345):
proceed unless the creator id differs from the resolved requester id and the
requester role is not HOST. -/
def canWrite (s : State) (p : Principal) (m : Memo) : Bool :=
  some m.creator_id == getUserIdFromUid s p.sub || p.role == "HOST"

/-- The UPDATE built on memo.ts lines 236-258: rewrite content and visibility
from the fields present in the body and refresh updated_ts, but only run the
statement at all when at least one of content and visibility is present
(`updates.length > 1` - the updated_ts assignment alone does not trigger it). -/
def patchRow (s : State) (memoId : Nat) (body : PatchBody) (now : Nat) : State :=
  if body.content.isSome || body.visibility.isSome then
    { s with memos := s.memos.map (fun x =>
        if x.id == memoId then
          { x with
            content := body.content.getD x.content,
            visibility := body.visibility.getD x.visibility,
            updated_ts := now }
        else x) }
  else s

/-- The value `finalResourceIdList` of memo.ts lines 260-287: the resolution of the
structured `resources` array when it is nonempty, else the raw
`resourceIdList` (which may be absent). -/
def patchFinalResourceIdList (s : State) (body : PatchBody) : Option (List Nat) :=
  let resources := body.resources.getD []
  if resources.length > 0 then some (resolveResources s resources)
  else body.resourceIdList

/-- memo.ts lines 290-304: delete every association of the memo, then insert
one row per resolved id, in order. -/
def replaceAssociations (s : State) (memoId : Nat) (l : List Nat) : State :=
  { s with memo_resources :=
      s.memo_resources.filter (fun mr => mr.memo_id != memoId) ++
        l.map (fun rid => { memo_id := memoId, resource_id := rid }) }

/-- The association step of PATCH: replace wholesale when the final list is
defined, leave untouched when it is absent. -/
def patchAssoc (s : State) (memoId : Nat) (body : PatchBody) : State :=
  match patchFinalResourceIdList s body with
  | none => s
  | some l => replaceAssociations s memoId l

/-- The tag step of PATCH (memo.ts lines 307-314): re-run the synchronizer
when content is present and the requester resolved to a truthy user id. -/
def patchTagSync (extract : String → List String) (resolvedUserId : Option Nat)
    (s : State) (memoId : Nat) (body : PatchBody) : State :=
  match body.content, resolvedUserId with
  | some content, some userId =>
    if userId != 0 then updateMemoTags extract s memoId userId content else s
  | _, _ => s

/-- Handler of `PATCH /:id` (memo.ts lines 211-324): require a principal;
fetch the memo, 404 if absent; apply the write guard, 403 on failure; then the
row update, the association replacement and the tag step, in source order. -/
def patchMemo (extract : String → List String) (s : State) (req : Option Principal)
    (memoId : Nat) (body : PatchBody) (now : Nat) : WriteResult :=
  match req with
  | none => .unauthorized
  | some p =>
    match findMemo s memoId with
    | none => .notFound
    | some m =>
      if canWrite s p m then
        let s1 := patchRow s memoId body now
        let s2 := patchAssoc s1 memoId body
        .ok (patchTagSync extract (getUserIdFromUid s p.sub) s2 memoId body)
      else .forbidden

/-- Handler of `DELETE /:id` (memo.ts lines 327-361): require a principal;
fetch the memo, 404 if absent; apply the write guard, 403 on failure; then a
logical delete: set row_status to ARCHIVED and refresh updated_ts on that row,
touching nothing else. -/
def archiveState (s : State) (memoId : Nat) (now : Nat) : State :=
  { s with memos := s.memos.map (fun x =>
      if x.id == memoId then { x with row_status := "ARCHIVED", updated_ts := now } else x) }

def deleteMemo (s : State) (req : Option Principal) (memoId : Nat) (now : Nat) : WriteResult :=
  match req with
  | none => .unauthorized
  | some p =>
    match findMemo s memoId with
    | none => .notFound
    | some m =>
      if canWrite s p m then .ok (archiveState s memoId now)
      else .forbidden

/-- The query parameters of `GET /` (memo.ts lines 118-123); `none` models an
absent (or falsy) parameter, so defaults land in the filter semantics. -/
structure ListFilter where
  rowStatus : Option String
  creatorId : Option Nat
  tag : Option String
  visibility : Option String
deriving DecidableEq

/-- The EXISTS subquery of the tag filter: some `memo_tag` row links the memo
to a `tag` row with the given name. -/
def hasTag (s : State) (memoId : Nat) (tagName : String) : Bool :=
  s.memo_tags.any (fun mt => mt.memo_id == memoId &&
    s.tags.any (fun t => t.id == mt.tag_id && t.name == tagName))

/-- The WHERE clause built by `GET /` (memo.ts lines 125-151), together with
the `JOIN user` of the main query: row_status equals the requested one
(default NORMAL); creator matches when a creatorId is given; visibility
matches when given, and otherwise defaults to PUBLIC exactly when no
creatorId is given; the tag subquery when a tag is given. -/
def memoMatchesFilter (s : State) (f : ListFilter) (m : Memo) : Bool :=
  (m.row_status == f.rowStatus.getD "NORMAL") &&
  userExists s m.creator_id &&
  (match f.creatorId with
   | none => true
   | some cid => m.creator_id == cid) &&
  (match f.visibility with
   | some v => m.visibility == v
   | none =>
     match f.creatorId with
     | none => m.visibility == "PUBLIC"
     | some _ => true) &&
  (match f.tag with
   | none => true
   | some t => hasTag s m.id t)

/-- The ordering `ORDER BY m.created_ts DESC`. -/
def memoOrder (a b : Memo) : Prop := b.created_ts ≤ a.created_ts

instance : DecidableRel memoOrder := fun a b => Nat.decLe b.created_ts a.created_ts

instance : IsTotal Memo memoOrder := ⟨fun a b => Nat.le_total b.created_ts a.created_ts⟩

instance : IsTrans Memo memoOrder := ⟨fun _ _ _ hab hbc => Nat.le_trans hbc hab⟩

/-- Handler of `GET /` (memo.ts lines 115-177): the matching rows ordered by
created_ts descending, with OFFSET and LIMIT applied. -/
def listMemos (s : State) (f : ListFilter) (limit offset : Nat) : List Memo :=
  (((List.insertionSort memoOrder (s.memos.filter (memoMatchesFilter s f))).drop
      offset).take limit)

/-- One row of the daily histogram reported by `GET /stats`. -/
structure DailyBucket where
  ts : Nat
  count : Nat
deriving DecidableEq

/-- The predicate of both stats queries: row_status NORMAL and visibility
PUBLIC. -/
def isPublicNormal (m : Memo) : Bool :=
  m.row_status == "NORMAL" && m.visibility == "PUBLIC"

/-- The counting query over memos with row_status NORMAL and visibility
PUBLIC (memo.ts lines 367-369). -/
def statsTotal (s : State) : Nat :=
  (s.memos.filter isPublicNormal).length

/-- The UTC calendar-day index of an epoch timestamp: what
the SQLite DATE function applied to created_ts as a unixepoch groups by, with a day written as its index so
that the midnight epoch seconds of the day is the index times 86400 (which is
what `new Date(date).getTime() / 1000` recovers from the date string). -/
def dayOf (ts : Nat) : Nat := ts / 86400

/-- The ordering `ORDER BY date DESC` over day indices (the date strings are
ISO formatted, so their lexicographic order is the order of the day
indices). -/
def dayOrder (a b : Nat) : Prop := b ≤ a

instance : DecidableRel dayOrder := fun a b => Nat.decLe b a

instance : IsTotal Nat dayOrder := ⟨fun a b => Nat.le_total b a⟩

instance : IsTrans Nat dayOrder := ⟨fun _ _ _ hab hbc => Nat.le_trans hbc hab⟩

/-- The rows feeding the daily histogram: NORMAL PUBLIC memos created strictly
after thirty days before now.  The cutoff is computed in ℤ because the
JavaScript subtraction does not truncate at zero. -/
def statsEligible (s : State) (now : Nat) : List Memo :=
  s.memos.filter (fun m => isPublicNormal m &&
    decide ((now : Int) - 30 * 24 * 60 * 60 < (m.created_ts : Int)))

/-- The distinct days of the eligible rows (`GROUP BY DATE(...)`), ordered
descending (`ORDER BY date DESC`). -/
def statsDays (s : State) (now : Nat) : List Nat :=
  List.insertionSort dayOrder (((statsEligible s now).map (fun m => dayOf m.created_ts)).dedup)

/-- The daily-histogram query and projection of `GET /stats` (memo.ts lines
372-389): among NORMAL PUBLIC memos created strictly after thirty days before
now, group by UTC calendar day, order by day descending, and report each
bucket as the midnight epoch seconds of its day together with its count. -/
def statsHistogram (s : State) (now : Nat) : List DailyBucket :=
  (statsDays s now).map (fun d =>
    { ts := d * 86400,
      count := ((statsEligible s now).filter (fun m => dayOf m.created_ts == d)).length })

/-! Concrete fixtures used to instantiate the theorems. -/

/-- A tag extractor that finds no tags (the extraction rule is external). -/
def noTags : String → List String := fun _ => []

def userA : User := { id := 1, uid := "uidA", username := "alice" }

def userB : User := { id := 2, uid := "uidB", username := "bob" }

def memoPub : Memo :=
  { id := 1, uid := "m1", creator_id := 1, content := "hello", visibility := "PUBLIC",
    row_status := "NORMAL", created_ts := 100, updated_ts := 100 }

def memoPriv : Memo :=
  { id := 2, uid := "m2", creator_id := 1, content := "secret", visibility := "PRIVATE",
    row_status := "NORMAL", created_ts := 200, updated_ts := 200 }

def res7 : Resource := { id := 7, uid := "abc123" }

def baseState : State :=
  { users := [userA, userB], memos := [memoPub, memoPriv], resources := [res7],
    memo_resources := [{ memo_id := 2, resource_id := 7 }], tags := [], memo_tags := [] }

def alice : Principal := { sub := "uidA", username := "alice", role := "USER" }

def bob : Principal := { sub := "uidB", username := "bob", role := "USER" }

def ghost : Principal := { sub := "nope", username := "ghost", role := "USER" }

def emptyPatch : PatchBody :=
  { content := none, visibility := none, resourceIdList := none, resources := none }

def contentPatch : PatchBody :=
  { content := some "new", visibility := none, resourceIdList := none, resources := none }

def emptyResourcesPatch : PatchBody :=
  { content := none, visibility := none, resourceIdList := none, resources := some [] }

def clearPatch : PatchBody :=
  { content := none, visibility := none, resourceIdList := some [], resources := none }

def clearedBase : State := { baseState with memo_resources := [] }

def goodRef : ResourceRef := { name := some "resources/abc123" }

/-- A list request with every optional query parameter absent. -/
def defaultFilter : ListFilter :=
  { rowStatus := none, creatorId := none, tag := none, visibility := none }

/-- A list request supplying only creatorId. -/
def creatorFilter (cid : Nat) : ListFilter :=
  { rowStatus := none, creatorId := some cid, tag := none, visibility := none }

def missingRef : ResourceRef := { name := some "resources/zzz" }

def newMemo6 : Memo :=
  { id := 3, uid := "mu", creator_id := 1, content := "hi", visibility := "PRIVATE",
    row_status := "NORMAL", created_ts := 500, updated_ts := 500 }

def created6 : State :=
  { users := [userA, userB],
    memos := [memoPub, memoPriv, newMemo6],
    resources := [res7],
    memo_resources := [{ memo_id := 2, resource_id := 7 }, { memo_id := 3, resource_id := 7 },
      { memo_id := 3, resource_id := 7 }],
    tags := [],
    memo_tags := [] }

def patched6 : State :=
  { baseState with
    memo_resources := [{ memo_id := 2, resource_id := 7 }, { memo_id := 2, resource_id := 7 }] }

def patchedBase : State :=
  { baseState with memos := [{ memoPub with content := "new", updated_ts := 999 }, memoPriv] }

/-! Helper lemmas about the embedding. -/

theorem ensureTag_memos (s : State) (n : String) : (ensureTag s n).memos = s.memos := by
  unfold ensureTag; split <;> rfl

theorem ensureTag_users (s : State) (n : String) : (ensureTag s n).users = s.users := by
  unfold ensureTag; split <;> rfl

theorem ensureTag_resources (s : State) (n : String) :
    (ensureTag s n).resources = s.resources := by
  unfold ensureTag; split <;> rfl

theorem ensureTag_memo_resources (s : State) (n : String) :
    (ensureTag s n).memo_resources = s.memo_resources := by
  unfold ensureTag; split <;> rfl

theorem foldl_ensureTag_memos (names : List String) (s : State) :
    (names.foldl ensureTag s).memos = s.memos := by
  induction names generalizing s with
  | nil => rfl
  | cons n t ih => rw [List.foldl_cons, ih, ensureTag_memos]

theorem foldl_ensureTag_users (names : List String) (s : State) :
    (names.foldl ensureTag s).users = s.users := by
  induction names generalizing s with
  | nil => rfl
  | cons n t ih => rw [List.foldl_cons, ih, ensureTag_users]

theorem foldl_ensureTag_resources (names : List String) (s : State) :
    (names.foldl ensureTag s).resources = s.resources := by
  induction names generalizing s with
  | nil => rfl
  | cons n t ih => rw [List.foldl_cons, ih, ensureTag_resources]

theorem foldl_ensureTag_memo_resources (names : List String) (s : State) :
    (names.foldl ensureTag s).memo_resources = s.memo_resources := by
  induction names generalizing s with
  | nil => rfl
  | cons n t ih => rw [List.foldl_cons, ih, ensureTag_memo_resources]

theorem updateMemoTags_memos (e : String → List String) (s : State)
    (memoId ownerId : Nat) (c : String) :
    (updateMemoTags e s memoId ownerId c).memos = s.memos := by
  unfold updateMemoTags; exact foldl_ensureTag_memos _ _

theorem updateMemoTags_users (e : String → List String) (s : State)
    (memoId ownerId : Nat) (c : String) :
    (updateMemoTags e s memoId ownerId c).users = s.users := by
  unfold updateMemoTags; exact foldl_ensureTag_users _ _

theorem updateMemoTags_resources (e : String → List String) (s : State)
    (memoId ownerId : Nat) (c : String) :
    (updateMemoTags e s memoId ownerId c).resources = s.resources := by
  unfold updateMemoTags; exact foldl_ensureTag_resources _ _

theorem updateMemoTags_memo_resources (e : String → List String) (s : State)
    (memoId ownerId : Nat) (c : String) :
    (updateMemoTags e s memoId ownerId c).memo_resources = s.memo_resources := by
  unfold updateMemoTags; exact foldl_ensureTag_memo_resources _ _

theorem getUserIdFromUid_users_eq (s1 s2 : State) (u : String) (h : s1.users = s2.users) :
    getUserIdFromUid s1 u = getUserIdFromUid s2 u := by
  unfold getUserIdFromUid; rw [h]

theorem userExists_users_eq (s1 s2 : State) (i : Nat) (h : s1.users = s2.users) :
    userExists s1 i = userExists s2 i := by
  unfold userExists; rw [h]

theorem resolveResources_resources_eq (s1 s2 : State) (refs : List ResourceRef)
    (h : s1.resources = s2.resources) :
    resolveResources s1 refs = resolveResources s2 refs := by
  unfold resolveResources lookupResourceId; rw [h]

/-- find? by id commutes with a map that preserves ids. -/
theorem find?_map_keeps_id (l : List Memo) (f : Memo → Memo) (k : Nat)
    (hf : ∀ x, (f x).id = x.id) :
    (l.map f).find? (fun m => m.id == k) = (l.find? (fun m => m.id == k)).map f := by
  induction l with
  | nil => rfl
  | cons a t ih =>
    simp only [List.map_cons, List.find?_cons, hf a]
    cases h : (a.id == k) <;> simp [h, ih]

theorem patchRow_users (s : State) (memoId : Nat) (body : PatchBody) (now : Nat) :
    (patchRow s memoId body now).users = s.users := by
  unfold patchRow; split <;> rfl

theorem patchRow_resources (s : State) (memoId : Nat) (body : PatchBody) (now : Nat) :
    (patchRow s memoId body now).resources = s.resources := by
  unfold patchRow; split <;> rfl

theorem patchRow_memo_resources (s : State) (memoId : Nat) (body : PatchBody) (now : Nat) :
    (patchRow s memoId body now).memo_resources = s.memo_resources := by
  unfold patchRow; split <;> rfl

theorem patchAssoc_memos (s : State) (memoId : Nat) (body : PatchBody) :
    (patchAssoc s memoId body).memos = s.memos := by
  unfold patchAssoc; split <;> rfl

theorem patchAssoc_users (s : State) (memoId : Nat) (body : PatchBody) :
    (patchAssoc s memoId body).users = s.users := by
  unfold patchAssoc; split <;> rfl

theorem patchAssoc_resources (s : State) (memoId : Nat) (body : PatchBody) :
    (patchAssoc s memoId body).resources = s.resources := by
  unfold patchAssoc; split <;> rfl

theorem patchAssoc_memo_resources (s : State) (memoId : Nat) (body : PatchBody) :
    (patchAssoc s memoId body).memo_resources =
      match patchFinalResourceIdList s body with
      | none => s.memo_resources
      | some l => s.memo_resources.filter (fun mr => mr.memo_id != memoId) ++
          l.map (fun rid => { memo_id := memoId, resource_id := rid }) := by
  unfold patchAssoc
  cases patchFinalResourceIdList s body <;> rfl

theorem patchTagSync_memos (e : String → List String) (ru : Option Nat) (s : State)
    (memoId : Nat) (body : PatchBody) :
    (patchTagSync e ru s memoId body).memos = s.memos := by
  unfold patchTagSync
  cases body.content with
  | none => cases ru <;> rfl
  | some c =>
    cases ru with
    | none => rfl
    | some u =>
      dsimp only
      split
      · exact updateMemoTags_memos _ _ _ _ _
      · rfl

theorem patchTagSync_users (e : String → List String) (ru : Option Nat) (s : State)
    (memoId : Nat) (body : PatchBody) :
    (patchTagSync e ru s memoId body).users = s.users := by
  unfold patchTagSync
  cases body.content with
  | none => cases ru <;> rfl
  | some c =>
    cases ru with
    | none => rfl
    | some u =>
      dsimp only
      split
      · exact updateMemoTags_users _ _ _ _ _
      · rfl

theorem patchTagSync_resources (e : String → List String) (ru : Option Nat) (s : State)
    (memoId : Nat) (body : PatchBody) :
    (patchTagSync e ru s memoId body).resources = s.resources := by
  unfold patchTagSync
  cases body.content with
  | none => cases ru <;> rfl
  | some c =>
    cases ru with
    | none => rfl
    | some u =>
      dsimp only
      split
      · exact updateMemoTags_resources _ _ _ _ _
      · rfl

theorem patchTagSync_memo_resources (e : String → List String) (ru : Option Nat) (s : State)
    (memoId : Nat) (body : PatchBody) :
    (patchTagSync e ru s memoId body).memo_resources = s.memo_resources := by
  unfold patchTagSync
  cases body.content with
  | none => cases ru <;> rfl
  | some c =>
    cases ru with
    | none => rfl
    | some u =>
      dsimp only
      split
      · exact updateMemoTags_memo_resources _ _ _ _ _
      · rfl

theorem resolveResources_set_memos (s : State) (ms : List Memo) (refs : List ResourceRef) :
    resolveResources { s with memos := ms } refs = resolveResources s refs :=
  resolveResources_resources_eq _ _ _ rfl

theorem patchFinalResourceIdList_resources_eq (s1 s2 : State) (body : PatchBody)
    (h : s1.resources = s2.resources) :
    patchFinalResourceIdList s1 body = patchFinalResourceIdList s2 body := by
  unfold patchFinalResourceIdList
  simp only [resolveResources_resources_eq s1 s2 _ h]

/-- Structure of the store produced by a successful PATCH: the memo rows come
from the row update alone, the associations from the association step applied
after it, and the user and resource tables are untouched. -/
theorem patchMemo_ok_state (extract : String → List String) (s : State) (p : Principal)
    (memoId : Nat) (body : PatchBody) (now : Nat) (m : Memo) (s1 : State)
    (hm : findMemo s memoId = some m)
    (hok : patchMemo extract s (some p) memoId body now = .ok s1) :
    s1.memos = (patchRow s memoId body now).memos ∧
    s1.memo_resources = (patchAssoc (patchRow s memoId body now) memoId body).memo_resources ∧
    s1.users = s.users ∧
    s1.resources = s.resources := by
  have hw : canWrite s p m = true := by
    cases hcw : canWrite s p m
    · simp [patchMemo, hm, hcw] at hok
    · rfl
  simp only [patchMemo, hm, hw, if_true] at hok
  have hs1 : patchTagSync extract (getUserIdFromUid s p.sub)
      (patchAssoc (patchRow s memoId body now) memoId body) memoId body = s1 := by
    simpa using hok
  subst hs1
  refine ⟨?_, ?_, ?_, ?_⟩
  · rw [patchTagSync_memos, patchAssoc_memos]
  · rw [patchTagSync_memo_resources]
  · rw [patchTagSync_users, patchAssoc_users, patchRow_users]
  · rw [patchTagSync_resources, patchAssoc_resources, patchRow_resources]

/-- Every row of a listing satisfies the WHERE clause. -/
theorem mem_listMemos_matches (s : State) (f : ListFilter) (limit offset : Nat) (m : Memo)
    (h : m ∈ listMemos s f limit offset) : memoMatchesFilter s f m = true := by
  unfold listMemos at h
  have h1 := List.mem_of_mem_take h
  have h2 := List.mem_of_mem_drop h1
  have h3 := (List.perm_insertionSort memoOrder _).mem_iff.mp h2
  exact (List.mem_filter.mp h3).2

/-- A listing is sorted by created_ts descending. -/
theorem listMemos_sorted (s : State) (f : ListFilter) (limit offset : Nat) :
    (listMemos s f limit offset).Pairwise (fun a b => b.created_ts ≤ a.created_ts) := by
  unfold listMemos
  have hs : (List.insertionSort memoOrder
      (s.memos.filter (memoMatchesFilter s f))).Pairwise memoOrder :=
    List.sorted_insertionSort memoOrder _
  exact List.Pairwise.sublist ((List.take_sublist _ _).trans (List.drop_sublist _ _)) hs

/-- A row satisfying the WHERE clause appears in the listing when the limit
covers the whole table. -/
theorem listMemos_complete (s : State) (f : ListFilter) (m : Memo)
    (h : memoMatchesFilter s f m = true) (hm : m ∈ s.memos) :
    m ∈ listMemos s f s.memos.length 0 := by
  unfold listMemos
  rw [List.drop_zero]
  have hmem : m ∈ List.insertionSort memoOrder (s.memos.filter (memoMatchesFilter s f)) :=
    (List.perm_insertionSort memoOrder _).mem_iff.mpr (List.mem_filter.mpr ⟨hm, h⟩)
  have hlen : (List.insertionSort memoOrder
      (s.memos.filter (memoMatchesFilter s f))).length ≤ s.memos.length := by
    rw [List.length_insertionSort]
    exact List.length_filter_le _ _
  rw [List.take_of_length_le hlen]
  exact hmem

/-- Decomposition of the WHERE clause. -/
theorem memoMatchesFilter_fields (s : State) (f : ListFilter) (m : Memo)
    (h : memoMatchesFilter s f m = true) :
    m.row_status = f.rowStatus.getD "NORMAL" ∧
    userExists s m.creator_id = true ∧
    (f.creatorId = none → f.visibility = none → m.visibility = "PUBLIC") := by
  unfold memoMatchesFilter at h
  simp only [Bool.and_eq_true] at h
  obtain ⟨⟨⟨⟨h1, h2⟩, h3⟩, h4⟩, h5⟩ := h
  refine ⟨by simpa using h1, h2, ?_⟩
  intro hc hv
  rw [hc] at h4
  rw [hv] at h4
  simpa using h4

/-- C1: a PUBLIC memo is direct-fetch readable by any requester including an
anonymous one; a PRIVATE memo is readable iff the requester is authenticated
and their resolved numeric user id equals the memo creator id, and otherwise
the fetch is Forbidden; a nonexistent memo id is always NotFound no matter who
asks.  (The memo fetch joins the user table, so the memo creator is assumed to
exist in the store.) -/
theorem read_access_control (s : State) (memoId : Nat) (req : Option Principal) :
    (∀ m, findMemo s memoId = some m → userExists s m.creator_id = true →
       m.visibility = "PUBLIC" → getMemoHandler s req memoId = .ok m) ∧
    (∀ m p, findMemo s memoId = some m → userExists s m.creator_id = true →
       m.visibility = "PRIVATE" →
       (getMemoHandler s (some p) memoId = .ok m ↔
          getUserIdFromUid s p.sub = some m.creator_id)) ∧
    (∀ m, findMemo s memoId = some m → userExists s m.creator_id = true →
       m.visibility = "PRIVATE" → getMemoHandler s none memoId = .forbidden) ∧
    (∀ m p, findMemo s memoId = some m → userExists s m.creator_id = true →
       m.visibility = "PRIVATE" → ¬ getUserIdFromUid s p.sub = some m.creator_id →
       getMemoHandler s (some p) memoId = .forbidden) ∧
    (findMemo s memoId = none → getMemoHandler s req memoId = .notFound) := by
  refine ⟨?_, ?_, ?_, ?_, ?_⟩
  · intro m hm hu hv
    simp [getMemoHandler, findMemoJoined, hm, hu, hv]
  · intro m p hm hu hv
    constructor
    · intro hok
      cases hb : (some m.creator_id == getUserIdFromUid s p.sub) with
      | true => exact (beq_iff_eq.mp hb).symm
      | false => simp [getMemoHandler, findMemoJoined, hm, hu, hv, hb] at hok
    · intro h
      simp [getMemoHandler, findMemoJoined, hm, hu, hv, h]
  · intro m hm hu hv
    simp [getMemoHandler, findMemoJoined, hm, hu, hv]
  · intro m p hm hu hv h
    have hb : (some m.creator_id == getUserIdFromUid s p.sub) = false := by
      exact beq_eq_false_iff_ne.mpr (fun he => h he.symm)
    simp [getMemoHandler, findMemoJoined, hm, hu, hv, hb]
  · intro h
    simp [getMemoHandler, findMemoJoined, h]

/-- Witness for C1 on the concrete store. -/
theorem read_access_control_witness :
    getMemoHandler baseState none 1 = .ok memoPub ∧
    getMemoHandler baseState (some alice) 2 = .ok memoPriv ∧
    getMemoHandler baseState none 2 = .forbidden ∧
    getMemoHandler baseState (some bob) 2 = .forbidden ∧
    getMemoHandler baseState (some bob) 99 = .notFound := by
  refine ⟨?_, ?_, ?_, ?_, ?_⟩
  · exact (read_access_control baseState 1 none).1 memoPub (by decide) (by decide) (by decide)
  · exact ((read_access_control baseState 2 (some alice)).2.1 memoPriv alice
      (by decide) (by decide) (by decide)).mpr (by decide)
  · exact (read_access_control baseState 2 none).2.2.1 memoPriv
      (by decide) (by decide) (by decide)
  · exact (read_access_control baseState 2 (some bob)).2.2.2.1 memoPriv bob
      (by decide) (by decide) (by decide) (by decide)
  · exact (read_access_control baseState 99 (some bob)).2.2.2.2 (by decide)

/-- C2: for update and delete, an unauthenticated requester is Unauthorized;
with a principal, a nonexistent memo id is NotFound; for an existing memo the
mutation goes through iff the resolved requester id equals the creator id or
the requester role is HOST, and is otherwise Forbidden.  The existence check
is decided before the ownership check, so NotFound and Forbidden are
distinct outcomes. -/
theorem write_guard_outcomes (extract : String → List String) (s : State) (p : Principal)
    (memoId : Nat) (body : PatchBody) (now : Nat) :
    (patchMemo extract s none memoId body now = .unauthorized ∧
     deleteMemo s none memoId now = .unauthorized) ∧
    (findMemo s memoId = none →
       patchMemo extract s (some p) memoId body now = .notFound ∧
       deleteMemo s (some p) memoId now = .notFound) ∧
    (∀ m, findMemo s memoId = some m →
       ((getUserIdFromUid s p.sub = some m.creator_id ∨ p.role = "HOST") →
          (∃ s1, patchMemo extract s (some p) memoId body now = .ok s1) ∧
          (∃ s2, deleteMemo s (some p) memoId now = .ok s2)) ∧
       (¬ getUserIdFromUid s p.sub = some m.creator_id → ¬ p.role = "HOST" →
          patchMemo extract s (some p) memoId body now = .forbidden ∧
          deleteMemo s (some p) memoId now = .forbidden)) := by
  refine ⟨⟨rfl, rfl⟩, ?_, ?_⟩
  · intro h
    exact ⟨by simp [patchMemo, h], by simp [deleteMemo, h]⟩
  · intro m hm
    constructor
    · intro hperm
      have hw : canWrite s p m = true := by
        unfold canWrite
        rcases hperm with h | h
        · rw [h]; simp
        · rw [h]; simp
      constructor
      · show ∃ s1, _ = WriteResult.ok s1
        simp [patchMemo, hm, hw]
      · show ∃ s2, _ = WriteResult.ok s2
        simp [deleteMemo, hm, hw]
    · intro h1 h2
      have hw : canWrite s p m = false := by
        unfold canWrite
        have hb1 : (some m.creator_id == getUserIdFromUid s p.sub) = false :=
          beq_eq_false_iff_ne.mpr (fun he => h1 he.symm)
        have hb2 : (p.role == "HOST") = false := beq_eq_false_iff_ne.mpr h2
        rw [hb1, hb2]; rfl
      exact ⟨by simp [patchMemo, hm, hw], by simp [deleteMemo, hm, hw]⟩

/-- Witness for C2 on the concrete store. -/
theorem write_guard_outcomes_witness :
    (patchMemo noTags baseState none 2 emptyPatch 999 = .unauthorized ∧
     deleteMemo baseState none 2 999 = .unauthorized) ∧
    (patchMemo noTags baseState (some bob) 99 emptyPatch 999 = .notFound ∧
     deleteMemo baseState (some bob) 99 999 = .notFound) ∧
    ((∃ s1, patchMemo noTags baseState (some alice) 2 emptyPatch 999 = .ok s1) ∧
     (∃ s2, deleteMemo baseState (some alice) 2 999 = .ok s2)) ∧
    (patchMemo noTags baseState (some bob) 2 emptyPatch 999 = .forbidden ∧
     deleteMemo baseState (some bob) 2 999 = .forbidden) := by
  refine ⟨?_, ?_, ?_, ?_⟩
  · exact (write_guard_outcomes noTags baseState bob 2 emptyPatch 999).1
  · exact (write_guard_outcomes noTags baseState bob 99 emptyPatch 999).2.1 (by decide)
  · exact ((write_guard_outcomes noTags baseState alice 2 emptyPatch 999).2.2 memoPriv
      (by decide)).1 (Or.inl (by decide))
  · exact ((write_guard_outcomes noTags baseState bob 2 emptyPatch 999).2.2 memoPriv
      (by decide)).2 (by decide) (by decide)

/-- C3 counterexample: a successful update that supplies neither content nor
visibility does not refresh the updated timestamp.  Alice patches her memo 1
with an empty body at time 999; the handler succeeds but the store is
returned unchanged, the updated timestamp of memo 1 still being 100, because
the UPDATE statement only runs when at least one updatable field is present
(memo.ts line 254, `updates.length > 1`). -/
theorem patch_timestamp_not_refreshed :
    patchMemo noTags baseState (some alice) 1 emptyPatch 999 = .ok baseState ∧
    findMemo baseState 1 = some memoPub ∧
    memoPub.updated_ts = 100 ∧ ¬ (100 : Nat) = 999 := by decide

/-- C3 (corrected): on a successful update, only the fields present in the
body (content, visibility) change on the memo row, and the updated timestamp
is refreshed exactly when at least one of them is present - when neither is
supplied the row (its updated timestamp included) is entirely unchanged.
Rows of other memos are untouched either way. -/
theorem patch_updates_present_fields (extract : String → List String) (s : State)
    (p : Principal) (memoId : Nat) (body : PatchBody) (now : Nat) (m : Memo) (s1 : State)
    (hm : findMemo s memoId = some m)
    (hok : patchMemo extract s (some p) memoId body now = .ok s1) :
    findMemo s1 memoId = some
      { m with
        content := body.content.getD m.content,
        visibility := body.visibility.getD m.visibility,
        updated_ts := if body.content.isSome || body.visibility.isSome then now
                      else m.updated_ts } ∧
    (∀ x ∈ s.memos, ¬ x.id = memoId → x ∈ s1.memos) ∧
    (∀ x ∈ s1.memos, ¬ x.id = memoId → x ∈ s.memos) := by
  obtain ⟨hmem, -, -, -⟩ := patchMemo_ok_state extract s p memoId body now m s1 hm hok
  cases hrc : (body.content.isSome || body.visibility.isSome) with
  | true =>
    rw [patchRow, hrc] at hmem
    simp only [if_true] at hmem
    set f : Memo → Memo := fun x =>
      if x.id == memoId then
        { x with
          content := body.content.getD x.content,
          visibility := body.visibility.getD x.visibility,
          updated_ts := now }
      else x with hf
    have hfid : ∀ x, (f x).id = x.id := by
      intro x; rw [hf]; dsimp only; split <;> rfl
    refine ⟨?_, ?_, ?_⟩
    · have hm0 : s.memos.find? (fun x => x.id == memoId) = some m := hm
      have hpred : (m.id == memoId) = true := by
        have h := List.find?_some hm0
        simpa using h
      unfold findMemo
      rw [hmem, find?_map_keeps_id _ f memoId hfid, hm0]
      simp [hf, hpred, hrc]
      intro h
      exact absurd (by simpa using hpred) h
    · intro x hx hne
      rw [hmem]
      have hfx : f x = x := by
        rw [hf]; dsimp only
        have : (x.id == memoId) = false := beq_eq_false_iff_ne.mpr hne
        rw [this]; rfl
      rw [← hfx]
      exact List.mem_map_of_mem f hx
    · intro x hx hne
      rw [hmem] at hx
      obtain ⟨y, hy, hyx⟩ := List.mem_map.mp hx
      have hyid : y.id = x.id := by rw [← hyx, hfid]
      have : (y.id == memoId) = false := beq_eq_false_iff_ne.mpr (hyid ▸ hne)
      have hfy : f y = y := by rw [hf]; dsimp only; rw [this]; rfl
      rw [← hyx, hfy]
      exact hy
  | false =>
    rw [patchRow, hrc] at hmem
    simp only [Bool.false_eq_true, if_false] at hmem
    have hc : body.content = none := by
      cases h : body.content
      · rfl
      · rw [h] at hrc; simp at hrc
    have hv : body.visibility = none := by
      cases h : body.visibility
      · rfl
      · rw [h] at hrc; simp at hrc
    refine ⟨?_, ?_, ?_⟩
    · unfold findMemo
      rw [hmem, hc, hv]
      simp only [Option.getD_none, Option.isSome_none, Bool.or_self, Bool.false_eq_true,
        if_false]
      exact hm
    · intro x hx _
      rw [hmem]; exact hx
    · intro x hx _
      rw [hmem] at hx; exact hx

/-- Witness for C3 on the concrete store: patching content alone rewrites
content and refreshes the timestamp of memo 1 and leaves memo 2 alone. -/
theorem patch_updates_present_fields_witness :
    findMemo patchedBase 1 = some { memoPub with content := "new", updated_ts := 999 } ∧
    memoPriv ∈ patchedBase.memos := by
  have h := patch_updates_present_fields noTags baseState alice 1 contentPatch 999 memoPub
    patchedBase (by decide) (by decide)
  exact ⟨h.1, h.2.1 memoPriv (by decide) (by decide)⟩

/-- C4 counterexample: an explicitly supplied empty structured `resources`
list does not clear the associations.  Alice updates her memo 2 with
`resources: []`; the update succeeds but the store is returned unchanged, the
prior association of memo 2 to resource 7 included, because the destructuring
default `resources = []` makes an explicit empty list indistinguishable from
an absent field and only a nonempty list overrides `resourceIdList`
(memo.ts lines 233 and 264). -/
theorem patch_empty_structured_list_keeps_associations :
    patchMemo noTags baseState (some alice) 2 emptyResourcesPatch 999 = .ok baseState ∧
    baseState.memo_resources = [{ memo_id := 2, resource_id := 7 }] := by decide

/-- C4 (corrected): on a successful update, associations are unchanged when
`resourceIdList` is absent and `resources` is absent or empty; an explicitly
supplied `resourceIdList` (even empty) replaces all associations of the memo
with exactly the given list, the empty list leaving the memo with zero
associations; a nonempty `resources` list replaces them with exactly its
resolution.  An explicitly empty `resources` list, however, behaves like an
absent field and leaves associations untouched. -/
theorem patch_resource_replacement (extract : String → List String) (s : State)
    (p : Principal) (memoId : Nat) (body : PatchBody) (now : Nat) (m : Memo) (s1 : State)
    (hm : findMemo s memoId = some m)
    (hok : patchMemo extract s (some p) memoId body now = .ok s1) :
    (body.resourceIdList = none → (body.resources = none ∨ body.resources = some []) →
       s1.memo_resources = s.memo_resources) ∧
    (∀ l, body.resourceIdList = some l → (body.resources = none ∨ body.resources = some []) →
       s1.memo_resources =
         s.memo_resources.filter (fun mr => mr.memo_id != memoId) ++
           l.map (fun rid => { memo_id := memoId, resource_id := rid })) ∧
    (body.resourceIdList = some [] → (body.resources = none ∨ body.resources = some []) →
       ∀ mr ∈ s1.memo_resources, ¬ mr.memo_id = memoId) ∧
    (∀ refs, body.resources = some refs → ¬ refs = [] →
       s1.memo_resources =
         s.memo_resources.filter (fun mr => mr.memo_id != memoId) ++
           (resolveResources s refs).map
             (fun rid => { memo_id := memoId, resource_id := rid })) := by
  obtain ⟨-, hmr, -, -⟩ := patchMemo_ok_state extract s p memoId body now m s1 hm hok
  rw [patchAssoc_memo_resources,
    patchFinalResourceIdList_resources_eq _ s body (patchRow_resources s memoId body now),
    patchRow_memo_resources] at hmr
  have hempty : (body.resources = none ∨ body.resources = some []) →
      body.resources.getD [] = [] := by
    rintro (h | h) <;> rw [h] <;> rfl
  refine ⟨?_, ?_, ?_, ?_⟩
  · intro hril hres
    rw [patchFinalResourceIdList, hempty hres, hril] at hmr
    simpa using hmr
  · intro l hril hres
    rw [patchFinalResourceIdList, hempty hres, hril] at hmr
    simpa using hmr
  · intro hril hres mr hmr2
    rw [patchFinalResourceIdList, hempty hres, hril] at hmr
    simp at hmr
    rw [hmr] at hmr2
    have h2 := List.of_mem_filter hmr2
    simpa using h2
  · intro refs hres hne
    have hlen : 0 < refs.length := List.length_pos.mpr hne
    rw [patchFinalResourceIdList, hres] at hmr
    simp only [Option.getD_some] at hmr
    rw [if_pos hlen] at hmr
    exact hmr

/-- Witness for C4 on the concrete store: an explicit empty `resourceIdList`
clears the associations of memo 2. -/
theorem patch_resource_replacement_witness :
    clearedBase.memo_resources =
      baseState.memo_resources.filter (fun mr => mr.memo_id != 2) ++
        List.map (fun rid => { memo_id := 2, resource_id := rid }) [] := by
  exact (patch_resource_replacement noTags baseState alice 2 clearPatch 999 memoPriv
    clearedBase (by decide) (by decide)).2.1 [] rfl (Or.inl rfl)

/-- C5: a structured resource reference whose extracted uid has no row in the
resource store contributes nothing to the resolved association list, and the
enclosing create or update still completes successfully - resolution failure
never fails the containing operation. -/
theorem resolution_miss_dropped (extract : String → List String) (s : State)
    (pre post : List ResourceRef) (r : ResourceRef) (u : String)
    (p : Principal) (c : String) (vis : Option String) (ridl : Option (List Nat))
    (memoUid : String) (now : Nat) (userId memoId : Nat) (m : Memo)
    (h1 : extractUid r.name = some u) (h2 : lookupResourceId s u = none)
    (hc : ¬ c = "") (hp : getUserIdFromUid s p.sub = some userId)
    (hm : findMemo s memoId = some m)
    (hperm : getUserIdFromUid s p.sub = some m.creator_id ∨ p.role = "HOST") :
    resolveResources s (pre ++ r :: post) = resolveResources s (pre ++ post) ∧
    (∃ s1 i, createMemo extract s (some p)
        { content := some c, visibility := vis, resourceIdList := ridl,
          resources := some (pre ++ r :: post) } memoUid now = .ok s1 i) ∧
    (∃ s2, patchMemo extract s (some p) memoId
        { content := none, visibility := none, resourceIdList := ridl,
          resources := some (pre ++ r :: post) } now = .ok s2) := by
  have hcb : (c == "") = false := beq_eq_false_iff_ne.mpr hc
  have hw : canWrite s p m = true := by
    unfold canWrite
    rcases hperm with h | h
    · rw [h]; simp
    · rw [h]; simp
  refine ⟨?_, ?_, ?_⟩
  · simp [resolveResources, List.filterMap_append, List.filterMap_cons, h1, h2]
  · simp [createMemo, hp, hcb]
  · simp [patchMemo, hm, hw]

/-- Witness for C5 on the concrete store: a reference to the unknown uid zzz
is dropped and both operations still succeed. -/
theorem resolution_miss_dropped_witness :
    resolveResources baseState [goodRef, missingRef] = resolveResources baseState [goodRef] ∧
    (∃ s1 i, createMemo noTags baseState (some alice)
        { content := some "hi", visibility := none, resourceIdList := none,
          resources := some [goodRef, missingRef] } "mu" 500 = .ok s1 i) ∧
    (∃ s2, patchMemo noTags baseState (some alice) 2
        { content := none, visibility := none, resourceIdList := none,
          resources := some [goodRef, missingRef] } 500 = .ok s2) := by
  have h := resolution_miss_dropped noTags baseState [goodRef] [] missingRef "zzz"
    alice "hi" none none "mu" 500 1 2 memoPriv
    (by decide) (by decide) (by decide) (by decide) (by decide) (Or.inl (by decide))
  simpa using h

/-- C6: when both a nonempty raw `resourceIdList` and a nonempty structured
`resources` list are supplied, the final association list is the one resolved
from the structured list, for create and update alike; resolution follows
input order (it distributes over concatenation) and duplicate references are
not de-duplicated. -/
theorem structured_resources_win (extract : String → List String) (s : State)
    (p : Principal) (c : String) (vis : Option String) (ridl : List Nat)
    (refs : List ResourceRef) (memoUid : String) (now : Nat) (userId memoId : Nat)
    (m : Memo) (s1 s2 : State) (i : Nat)
    (hne : ¬ refs = []) (hc : ¬ c = "") (hp : getUserIdFromUid s p.sub = some userId)
    (hm : findMemo s memoId = some m)
    (hok1 : createMemo extract s (some p)
        { content := some c, visibility := vis, resourceIdList := some ridl,
          resources := some refs } memoUid now = .ok s1 i)
    (hok2 : patchMemo extract s (some p) memoId
        { content := none, visibility := none, resourceIdList := some ridl,
          resources := some refs } now = .ok s2) :
    s1.memo_resources = s.memo_resources ++
      (resolveResources s refs).map (fun rid => { memo_id := i, resource_id := rid }) ∧
    s2.memo_resources = s.memo_resources.filter (fun mr => mr.memo_id != memoId) ++
      (resolveResources s refs).map (fun rid => { memo_id := memoId, resource_id := rid }) ∧
    (∀ xs ys, resolveResources s (xs ++ ys) =
       resolveResources s xs ++ resolveResources s ys) ∧
    (∀ q j, (extractUid q.name).bind (lookupResourceId s) = some j →
       resolveResources s [q, q] = [j, j]) := by
  have hcb : (c == "") = false := beq_eq_false_iff_ne.mpr hc
  have hlen : 0 < refs.length := List.length_pos.mpr hne
  refine ⟨?_, ?_, ?_, ?_⟩
  · simp only [createMemo, hp, hcb, Bool.false_eq_true, if_false, Option.getD_some,
      if_pos hlen] at hok1
    obtain ⟨hbig, hi⟩ := by simpa using hok1
    subst hi
    rw [← hbig, updateMemoTags_memo_resources]
    dsimp only
    rw [resolveResources_set_memos]
  · obtain ⟨-, hmr, -, -⟩ := patchMemo_ok_state extract s p memoId _ now m s2 hm hok2
    rw [patchAssoc_memo_resources,
      patchFinalResourceIdList_resources_eq _ s _ (patchRow_resources s memoId _ now),
      patchRow_memo_resources] at hmr
    rw [patchFinalResourceIdList] at hmr
    simp only [Option.getD_some] at hmr
    rw [if_pos hlen] at hmr
    exact hmr
  · intro xs ys
    simp [resolveResources, List.filterMap_append]
  · intro q j h
    simp [resolveResources, List.filterMap_cons, h]

/-- Witness for C6 on the concrete store: with `resourceIdList: [9]` and
`resources` naming resource 7 twice, both create and update associate exactly
[7, 7], in order and un-deduplicated. -/
theorem structured_resources_win_witness :
    created6.memo_resources = baseState.memo_resources ++
      List.map (fun rid => { memo_id := 3, resource_id := rid })
        (resolveResources baseState [goodRef, goodRef]) ∧
    patched6.memo_resources =
      baseState.memo_resources.filter (fun mr => mr.memo_id != 2) ++
        List.map (fun rid => { memo_id := 2, resource_id := rid })
          (resolveResources baseState [goodRef, goodRef]) ∧
    resolveResources baseState [goodRef, goodRef] = [7, 7] := by
  have h := structured_resources_win noTags baseState alice "hi" none [9] [goodRef, goodRef]
    "mu" 500 1 2 memoPriv created6 patched6 3
    (by decide) (by decide) (by decide) (by decide) (by decide) (by decide)
  exact ⟨h.1, h.2.1, h.2.2.2 goodRef 7 (by decide)⟩

/-- C7: a list request with no visibility filter and no creatorId filter
returns only PUBLIC memos; a creatorId filter without a visibility filter
returns the memos of that owner regardless of visibility; results always satisfy
the requested lifecycle status, defaulting to NORMAL, and are ordered by
creation timestamp descending. -/
theorem list_default_filter (s : State) (f : ListFilter) (limit offset cid : Nat) :
    (∀ m ∈ listMemos s defaultFilter limit offset,
       m.visibility = "PUBLIC" ∧ m.row_status = "NORMAL") ∧
    (∀ m ∈ s.memos, m.creator_id = cid → m.row_status = "NORMAL" →
       userExists s m.creator_id = true →
       m ∈ listMemos s (creatorFilter cid) s.memos.length 0) ∧
    (∀ m ∈ listMemos s f limit offset, m.row_status = f.rowStatus.getD "NORMAL") ∧
    (listMemos s f limit offset).Pairwise (fun a b => b.created_ts ≤ a.created_ts) := by
  refine ⟨?_, ?_, ?_, listMemos_sorted s f limit offset⟩
  · intro m hm
    have h := memoMatchesFilter_fields s _ m (mem_listMemos_matches s _ limit offset m hm)
    exact ⟨h.2.2 rfl rfl, by simpa using h.1⟩
  · intro m hm hcid hrs hu
    apply listMemos_complete
    · unfold memoMatchesFilter
      rw [← hcid]
      simp [hrs, hu, creatorFilter]
    · exact hm
  · intro m hm
    exact (memoMatchesFilter_fields s f m (mem_listMemos_matches s f limit offset m hm)).1

/-- Witness for C7 on the concrete store: the default listing returns exactly
the PUBLIC memo, and the creator-1 listing includes the PRIVATE memo. -/
theorem list_default_filter_witness :
    memoPub.visibility = "PUBLIC" ∧ memoPub.row_status = "NORMAL" ∧
    memoPriv ∈ listMemos baseState (creatorFilter 1) baseState.memos.length 0 := by
  have h1 := (list_default_filter baseState defaultFilter 50 0 1).1 memoPub (by decide)
  have h2 := (list_default_filter baseState defaultFilter 50 0 1).2.1
    memoPriv (by decide) (by decide) (by decide) (by decide)
  exact ⟨h1.1, h1.2, h2⟩

/-- Archiving rewrites exactly the row of the memo: the fetched row afterwards
is the old row with status ARCHIVED and the fresh timestamp. -/
theorem findMemo_archiveState (s : State) (memoId now : Nat) (m : Memo)
    (hm : findMemo s memoId = some m) :
    findMemo (archiveState s memoId now) memoId =
      some { m with row_status := "ARCHIVED", updated_ts := now } := by
  have hm0 : s.memos.find? (fun x => x.id == memoId) = some m := hm
  have hpred : (m.id == memoId) = true := by
    have h := List.find?_some hm0
    simpa using h
  unfold findMemo archiveState
  dsimp only
  rw [find?_map_keeps_id _ _ memoId (fun x => by cases h : (x.id == memoId) <;> simp [h]), hm0]
  simp [hpred]
  intro h
  exact absurd (by simpa using hpred) h

/-- C8: an authorized delete of an existing memo only flips that row to
ARCHIVED and refreshes its updated timestamp: the row is not removed, other
rows and the association and tag tables are untouched, the memo disappears
from a default-filtered listing, a direct fetch still returns it with status
ARCHIVED, and deleting again leaves it ARCHIVED. -/
theorem delete_archives_only (s : State) (p : Principal) (memoId now now2 limit offset : Nat)
    (m : Memo) (hm : findMemo s memoId = some m)
    (hown : getUserIdFromUid s p.sub = some m.creator_id)
    (hu : userExists s m.creator_id = true) :
    ∃ s1, deleteMemo s (some p) memoId now = .ok s1 ∧
      findMemo s1 memoId = some { m with row_status := "ARCHIVED", updated_ts := now } ∧
      s1.users = s.users ∧ s1.resources = s.resources ∧
      s1.memo_resources = s.memo_resources ∧ s1.tags = s.tags ∧
      s1.memo_tags = s.memo_tags ∧ s1.memos.length = s.memos.length ∧
      (∀ x ∈ s.memos, ¬ x.id = memoId → x ∈ s1.memos) ∧
      { m with row_status := "ARCHIVED", updated_ts := now } ∉
        listMemos s1 defaultFilter limit offset ∧
      getMemoHandler s1 (some p) memoId =
        .ok { m with row_status := "ARCHIVED", updated_ts := now } ∧
      (∃ s2, deleteMemo s1 (some p) memoId now2 = .ok s2 ∧
        findMemo s2 memoId = some { m with row_status := "ARCHIVED", updated_ts := now2 }) := by
  have hw : canWrite s p m = true := by
    unfold canWrite; rw [hown]; simp
  have hfm := findMemo_archiveState s memoId now m hm
  refine ⟨archiveState s memoId now, by simp [deleteMemo, hm, hw], hfm, rfl, rfl, rfl, rfl,
    rfl, by simp [archiveState], ?_, ?_, ?_, ?_⟩
  · intro x hx hne
    have hfx : (if (x.id == memoId) = true
        then { x with row_status := "ARCHIVED", updated_ts := now } else x) = x := by
      rw [beq_eq_false_iff_ne.mpr hne]; rfl
    exact List.mem_map.mpr ⟨x, hx, hfx⟩
  · intro hcontra
    have h := (memoMatchesFilter_fields _ _ _
      (mem_listMemos_matches _ _ _ _ _ hcontra)).1
    simp [defaultFilter] at h
  · unfold getMemoHandler findMemoJoined
    rw [hfm]
    dsimp only
    have hue : userExists (archiveState s memoId now) m.creator_id = true := hu
    rw [hue]
    cases hv : (m.visibility == "PRIVATE") with
    | false => simp [hv]
    | true =>
      rw [getUserIdFromUid_users_eq (archiveState s memoId now) s p.sub rfl, hown]
      simp [hv]
  · have hw2 : canWrite (archiveState s memoId now) p
        { m with row_status := "ARCHIVED", updated_ts := now } = true := by
      unfold canWrite
      rw [getUserIdFromUid_users_eq (archiveState s memoId now) s p.sub rfl, hown]
      simp
    refine ⟨archiveState (archiveState s memoId now) memoId now2,
      by simp [deleteMemo, hfm, hw2], ?_⟩
    have h2 := findMemo_archiveState (archiveState s memoId now) memoId now2 _ hfm
    exact h2

/-- Witness for C8 on the concrete store: alice deletes her private memo 2 at
time 300 and again at time 400. -/
theorem delete_archives_only_witness :
    ∃ s1, deleteMemo baseState (some alice) 2 300 = .ok s1 ∧
      findMemo s1 2 = some { memoPriv with row_status := "ARCHIVED", updated_ts := 300 } ∧
      s1.users = baseState.users ∧ s1.resources = baseState.resources ∧
      s1.memo_resources = baseState.memo_resources ∧ s1.tags = baseState.tags ∧
      s1.memo_tags = baseState.memo_tags ∧ s1.memos.length = baseState.memos.length ∧
      (∀ x ∈ baseState.memos, ¬ x.id = 2 → x ∈ s1.memos) ∧
      { memoPriv with row_status := "ARCHIVED", updated_ts := 300 } ∉
        listMemos s1 defaultFilter 50 0 ∧
      getMemoHandler s1 (some alice) 2 =
        .ok { memoPriv with row_status := "ARCHIVED", updated_ts := 300 } ∧
      (∃ s2, deleteMemo s1 (some alice) 2 400 = .ok s2 ∧
        findMemo s2 2 = some { memoPriv with row_status := "ARCHIVED", updated_ts := 400 }) :=
  delete_archives_only baseState alice 2 300 400 50 0 memoPriv
    (by decide) (by decide) (by decide)

/-- C9: stats reports as total the count of memos with status NORMAL and
visibility PUBLIC; the daily histogram counts such memos created within the
trailing 30 days grouped by the UTC calendar day of their creation timestamp,
each bucket carrying the midnight epoch seconds of its day (a multiple of
86400) and the count of that day, with buckets ordered strictly descending by
day. Every eligible memo is represented by a bucket for its day. -/
theorem stats_correct (s : State) (now : Nat) :
    statsTotal s = s.memos.countP
      (fun m => decide (m.row_status = "NORMAL" ∧ m.visibility = "PUBLIC")) ∧
    (∀ b ∈ statsHistogram s now, b.ts % 86400 = 0 ∧
       b.count = (s.memos.filter (fun m => isPublicNormal m &&
         decide ((now : Int) - 30 * 24 * 60 * 60 < (m.created_ts : Int)) &&
         (dayOf m.created_ts == b.ts / 86400))).length) ∧
    ((statsHistogram s now).map DailyBucket.ts).Pairwise (fun a b => b < a) ∧
    (∀ m ∈ s.memos, isPublicNormal m = true →
       (now : Int) - 30 * 24 * 60 * 60 < (m.created_ts : Int) →
       ∃ b ∈ statsHistogram s now, b.ts = dayOf m.created_ts * 86400) := by
  refine ⟨?_, ?_, ?_, ?_⟩
  · have hpt : ∀ m : Memo,
        isPublicNormal m = decide (m.row_status = "NORMAL" ∧ m.visibility = "PUBLIC") := by
      intro m
      by_cases h1 : m.row_status = "NORMAL" <;> by_cases h2 : m.visibility = "PUBLIC" <;>
        simp [isPublicNormal, h1, h2]
    unfold statsTotal
    rw [List.countP_eq_length_filter, List.filter_congr (fun m _ => (hpt m).symm)]
  · intro b hb
    obtain ⟨d, hd, hbd⟩ := List.mem_map.mp hb
    subst hbd
    dsimp only
    constructor
    · exact Nat.mul_mod_left d 86400
    · rw [Nat.mul_div_cancel d (by norm_num)]
      unfold statsEligible
      rw [List.filter_filter]
      exact congrArg List.length (List.filter_congr (fun x _ => Bool.and_comm _ _))
  · have hsorted : (statsDays s now).Pairwise dayOrder :=
      List.sorted_insertionSort dayOrder _
    have hnodup : (statsDays s now).Nodup :=
      (List.perm_insertionSort dayOrder _).symm.nodup (List.nodup_dedup _)
    have hstrict : (statsDays s now).Pairwise (fun a b => b < a) :=
      (hsorted.and hnodup).imp (fun h => Nat.lt_of_le_of_ne h.1 (Ne.symm h.2))
    unfold statsHistogram
    rw [List.map_map]
    rw [List.pairwise_map]
    exact hstrict.imp (fun {a} {b} h => by show b * 86400 < a * 86400; omega)
  · intro m hm hpn hwin
    have helig : m ∈ statsEligible s now := by
      unfold statsEligible
      refine List.mem_filter.mpr ⟨hm, ?_⟩
      rw [hpn]
      simpa using hwin
    have hd : dayOf m.created_ts ∈ statsDays s now := by
      unfold statsDays
      exact (List.perm_insertionSort dayOrder _).mem_iff.mpr
        (List.mem_dedup.mpr (List.mem_map_of_mem _ helig))
    exact ⟨_, List.mem_map_of_mem _ hd, rfl⟩

/-- Witness for C9 on the concrete store at time 150: the single bucket is day
zero with one PUBLIC NORMAL memo, and the PUBLIC memo has a bucket. -/
theorem stats_correct_witness :
    ({ ts := 0, count := 1 } : DailyBucket).ts % 86400 = 0 ∧
    ({ ts := 0, count := 1 } : DailyBucket).count =
      (baseState.memos.filter (fun m => isPublicNormal m &&
        decide ((150 : Int) - 30 * 24 * 60 * 60 < (m.created_ts : Int)) &&
        (dayOf m.created_ts == ({ ts := 0, count := 1 } : DailyBucket).ts / 86400))).length ∧
    (∃ b ∈ statsHistogram baseState 150, b.ts = dayOf memoPub.created_ts * 86400) := by
  have h := stats_correct baseState 150
  have h2 := h.2.1 { ts := 0, count := 1 } (by decide)
  have h4 := h.2.2.2 memoPub (by decide) (by decide) (by decide)
  exact ⟨h2.1, h2.2, h4⟩

/-- C10 counterexample: a create request by an authenticated principal whose
uid has no user row does not always return the user-not-found error - content
validation runs first, so a body without content yields the content-required
(400) error instead of 404 (memo.ts line 29 precedes line 37). -/
theorem create_missing_content_before_user :
    getUserIdFromUid baseState ghost.sub = none ∧
    createMemo noTags baseState (some ghost)
      { content := none, visibility := none, resourceIdList := none, resources := none }
      "u9" 500 = .contentRequired ∧
    ¬ (CreateResult.contentRequired = CreateResult.userNotFound) := by decide

/-- C10 (corrected): for a create request carrying nonempty content, an
authenticated principal whose external uid has no row in the user store gets
the user-not-found error, and no success state exists: the principal is
resolved before any insert, so the store is left unchanged. -/
theorem create_unresolved_user (extract : String → List String) (s : State) (p : Principal)
    (body : CreateBody) (memoUid : String) (now : Nat) (c : String)
    (hc1 : body.content = some c) (hc2 : ¬ c = "")
    (hu : getUserIdFromUid s p.sub = none) :
    createMemo extract s (some p) body memoUid now = .userNotFound := by
  have hcb : (c == "") = false := beq_eq_false_iff_ne.mpr hc2
  simp [createMemo, hc1, hcb, hu]

/-- Witness for C10. -/
theorem create_unresolved_user_witness :
    createMemo noTags baseState (some ghost)
      { content := some "hello", visibility := none, resourceIdList := none,
        resources := none } "u9" 500 = .userNotFound :=
  create_unresolved_user noTags baseState ghost
    { content := some "hello", visibility := none, resourceIdList := none,
      resources := none } "u9" 500 "hello" rfl (by decide) (by decide)

end Memos
